import Mathlib

/-!
Shallow embedding of the in-memory inventory service in `src/server.rs`
(struct `StoreInventory` implementing the `Inventory` trait), together with
a model of its polling-based watch loop.

The store is a `HashMap<String, Item>` behind a mutex; each RPC handler
acquires the lock, validates its preconditions, and (for mutations) writes
in place.  We embed the map as an association list with unique keys and each
handler as a pure function from the request and the current map to a
`Except Status` result paired with the map after the call.  Quantities are
embedded as natural numbers.  Prices are IEEE floats in the source, which
compares them with `<=` and `==` only and performs no arithmetic on them;
the first embedding carries them as rationals, which covers every non-NaN
price, and a second, float-faithful embedding (the `F`-prefixed definitions)
carries an explicit NaN with IEEE comparison semantics, under which the
reachable-state invariant about prices is settled.
-/

namespace ProductService

/-- Error message constants, verbatim from `src/server.rs`. -/
def BAD_PRICE_ERR : String := "provided PRICE was invalid"

def DUP_PRICE_ERR : String := "item is already at this price"

def DUP_ITEM_ERR : String := "item already exists in inventory"

def DUP_QUANT_ERR : String := "item is already at this quantity"

def LOW_QUANT_ERR : String := "invalid decrease quantity cannot bigger than current quantity"

def EMPTY_SKU_ERR : String := "provided SKU was empty"

def NO_ID_ERR : String := "no ID or SKU provided for item"

def NO_ITEM_ERR : String := "the item requested was not found"

def NO_STOCK_ERR : String := "no stock provided for item"

/-- gRPC status codes used by the handlers in `src/server.rs`. -/
inductive StatusCode where
  | invalidArgument
  | notFound
  | alreadyExists
  | internal
deriving DecidableEq, Repr

/-- A gRPC error status: a code together with its message. -/
structure Status where
  code : StatusCode
  message : String
deriving DecidableEq, Repr

def Status.invalid_argument (msg : String) : Status :=
  ⟨StatusCode.invalidArgument, msg⟩

def Status.not_found (msg : String) : Status :=
  ⟨StatusCode.notFound, msg⟩

def Status.already_exists (msg : String) : Status :=
  ⟨StatusCode.alreadyExists, msg⟩

def Status.internal (msg : String) : Status :=
  ⟨StatusCode.internal, msg⟩

/-- Modelled from the spec: the protobuf message definitions (`store` module)
are generated code not present under `src/`; per the spec's data model an
identifier carries the SKU string. -/
structure ItemIdentifier where
  sku : String
deriving DecidableEq, Repr

/-- Modelled from the spec: stock payload with `quantity` (non-negative
integer, embedded as `Nat`) and `price` (an IEEE float in the source, on
which it only performs order/equality comparison).  Here price is embedded
as `Rat`, which covers only non-NaN prices; the float-faithful model below
(`FItemStock` and friends) adds the NaN case, which this restriction cannot
express, and is used for the reachable-state invariant. -/
structure ItemStock where
  quantity : Nat
  price : Rat
deriving DecidableEq, Repr

/-- Modelled from the spec: a stock record with optional identifier and
optional stock payload, as used by `src/server.rs`. -/
structure Item where
  identifier : Option ItemIdentifier
  stock : Option ItemStock
deriving DecidableEq, Repr

/-- Modelled from the spec: request carrying a SKU and a quantity delta. -/
structure QuantityChangeRequest where
  sku : String
  quantity : Nat
deriving DecidableEq, Repr

/-- Modelled from the spec: request carrying a SKU and a new price.  As with
`ItemStock`, the `Rat` embedding covers only non-NaN request prices; the
float-faithful model below (`FPriceChangeRequest`) has the NaN case. -/
structure PriceChangeRequest where
  sku : String
  price : Rat
deriving DecidableEq, Repr

/-- Modelled from the spec: response carrying only a status string. -/
structure InventoryChangeResponse where
  status : String
deriving DecidableEq, Repr

/-- Modelled from the spec: response carrying the new price and quantity. -/
structure InventoryUpdateResponse where
  status : String
  price : Rat
  quantity : Nat
deriving DecidableEq, Repr

/-- The shared `HashMap<String, Item>` embedded as an association list. -/
abbrev InventoryMap := List (String × Item)

/-- `HashMap::get`: the value stored under a key, if any. -/
def mapGet : InventoryMap → String → Option Item
  | [], _ => none
  | (k, v) :: rest, sku => if k = sku then some v else mapGet rest sku

/-- `HashMap::insert` for a key known to be absent (the only way the source
inserts): append the new binding. -/
def mapInsert (m : InventoryMap) (k : String) (v : Item) : InventoryMap :=
  m ++ [(k, v)]

/-- `HashMap::remove`: drop the binding for a key. -/
def mapRemove : InventoryMap → String → InventoryMap
  | [], _ => []
  | (k, v) :: rest, sku =>
      if k = sku then mapRemove rest sku else (k, v) :: mapRemove rest sku

/-- In-place mutation through `HashMap::get_mut`: replace the value stored
under an existing key. -/
def mapSet : InventoryMap → String → Item → InventoryMap
  | [], _, _ => []
  | (k, v) :: rest, sku, it =>
      if k = sku then (k, it) :: mapSet rest sku it else (k, v) :: mapSet rest sku it

/-- Handler `add` (src/server.rs lines 41-71): validate identifier, stock and
price, reject duplicate SKUs, then insert the item verbatim. -/
def add (m : InventoryMap) (item : Item) :
    Except Status InventoryChangeResponse × InventoryMap :=
  match item.identifier with
  | none => (Except.error (Status.invalid_argument NO_ID_ERR), m)
  | some id =>
      if id.sku.isEmpty then (Except.error (Status.invalid_argument EMPTY_SKU_ERR), m)
      else
        match item.stock with
        | none => (Except.error (Status.invalid_argument NO_STOCK_ERR), m)
        | some stock =>
            if stock.price ≤ 0 then (Except.error (Status.invalid_argument BAD_PRICE_ERR), m)
            else
              if (mapGet m id.sku).isSome then
                (Except.error (Status.already_exists DUP_ITEM_ERR), m)
              else
                (Except.ok ⟨"success"⟩, mapInsert m id.sku item)

/-- Handler `remove` (src/server.rs lines 73-92): empty SKU is rejected;
removal of an absent key still succeeds, with a distinct status string. -/
def remove (m : InventoryMap) (id : ItemIdentifier) :
    Except Status InventoryChangeResponse × InventoryMap :=
  if id.sku.isEmpty then (Except.error (Status.invalid_argument EMPTY_SKU_ERR), m)
  else
    match mapGet m id.sku with
    | some _ => (Except.ok ⟨"success: item was removed"⟩, mapRemove m id.sku)
    | none => (Except.ok ⟨"sucsees: item did not exist"⟩, mapRemove m id.sku)

/-- Handler `get` (src/server.rs lines 94-111): empty SKU is rejected; an
absent key is `not-found`; otherwise a clone of the record is returned. -/
def get (m : InventoryMap) (id : ItemIdentifier) :
    Except Status Item × InventoryMap :=
  if id.sku.isEmpty then (Except.error (Status.invalid_argument EMPTY_SKU_ERR), m)
  else
    match mapGet m id.sku with
    | none => (Except.error (Status.not_found NO_ITEM_ERR), m)
    | some it => (Except.ok it, m)

/-- Handler `get_all` (src/server.rs lines 113-123): clones of all values. -/
def get_all (m : InventoryMap) : Except Status (List Item) × InventoryMap :=
  (Except.ok (m.map Prod.snd), m)

/-- Handler `decrease_quantity` (src/server.rs lines 125-162): checks, in
source order, record existence, stock presence, non-empty SKU, non-zero
amount and sufficiency, then writes the decreased quantity in place. -/
def decrease_quantity (m : InventoryMap) (req : QuantityChangeRequest) :
    Except Status InventoryUpdateResponse × InventoryMap :=
  match mapGet m req.sku with
  | none => (Except.error (Status.not_found NO_ITEM_ERR), m)
  | some it =>
      match it.stock with
      | none => (Except.error (Status.internal NO_STOCK_ERR), m)
      | some stock =>
          if req.sku.isEmpty then (Except.error (Status.invalid_argument EMPTY_SKU_ERR), m)
          else if req.quantity = 0 then
            (Except.error (Status.invalid_argument DUP_QUANT_ERR), m)
          else if req.quantity > stock.quantity then
            (Except.error (Status.invalid_argument LOW_QUANT_ERR), m)
          else
            let newStock : ItemStock := { stock with quantity := stock.quantity - req.quantity }
            (Except.ok { status := "success", price := newStock.price, quantity := newStock.quantity },
             mapSet m req.sku { it with stock := some newStock })

/-- Handler `increase_quantity` (src/server.rs lines 164-196): same checks as
decrease except sufficiency, then writes the increased quantity in place. -/
def increase_quantity (m : InventoryMap) (req : QuantityChangeRequest) :
    Except Status InventoryUpdateResponse × InventoryMap :=
  match mapGet m req.sku with
  | none => (Except.error (Status.not_found NO_ITEM_ERR), m)
  | some it =>
      match it.stock with
      | none => (Except.error (Status.internal NO_STOCK_ERR), m)
      | some stock =>
          if req.sku.isEmpty then (Except.error (Status.invalid_argument EMPTY_SKU_ERR), m)
          else if req.quantity = 0 then
            (Except.error (Status.invalid_argument DUP_QUANT_ERR), m)
          else
            let newStock : ItemStock := { stock with quantity := stock.quantity + req.quantity }
            (Except.ok { status := "success", price := newStock.price, quantity := newStock.quantity },
             mapSet m req.sku { it with stock := some newStock })

/-- Handler `update_price` (src/server.rs lines 198-234): checks, in source
order, non-empty SKU, positive new price, record existence, stock presence
and that the price actually changes, then writes the new price in place. -/
def update_price (m : InventoryMap) (req : PriceChangeRequest) :
    Except Status InventoryUpdateResponse × InventoryMap :=
  if req.sku.isEmpty then (Except.error (Status.invalid_argument EMPTY_SKU_ERR), m)
  else if req.price ≤ 0 then (Except.error (Status.invalid_argument BAD_PRICE_ERR), m)
  else
    match mapGet m req.sku with
    | none => (Except.error (Status.not_found NO_ITEM_ERR), m)
    | some it =>
        match it.stock with
        | none => (Except.error (Status.internal NO_STOCK_ERR), m)
        | some stock =>
            if stock.price = req.price then
              (Except.error (Status.invalid_argument DUP_PRICE_ERR), m)
            else
              let newStock : ItemStock := { stock with price := req.price }
              (Except.ok { status := "success", price := newStock.price, quantity := newStock.quantity },
               mapSet m req.sku { it with stock := some newStock })

/-- An event the watch task sends into its output channel: either a cloned
item (a change event) or a terminal error status. -/
inductive WatchEvent where
  | item : Item → WatchEvent
  | error : Status → WatchEvent
deriving DecidableEq, Repr

/-- One iteration of the watch loop body (src/server.rs lines 249-271),
given the held snapshot and the value observed at this poll: the events sent
during the iteration, and the snapshot held going into the next iteration
(`none` when the loop returns).  The record absent means one terminal
`not-found` event and exit; a changed record is emitted and becomes the new
snapshot; an unchanged record emits nothing. -/
def watchPoll (held : Item) (observed : Option Item) :
    List WatchEvent × Option Item :=
  match observed with
  | none => ([WatchEvent.error (Status.not_found NO_ITEM_ERR)], none)
  | some it_refresh =>
      if it_refresh ≠ held then ([WatchEvent.item it_refresh], some it_refresh)
      else ([], some it_refresh)

/-- The watch loop run over a finite sequence of polled observations (the
value the store holds under the watched SKU at each successive wakeup),
collecting every event sent into the channel; the loop stops as soon as an
iteration returns. -/
def watchRun (held : Item) : List (Option Item) → List WatchEvent
  | [] => []
  | obs :: rest =>
      match watchPoll held obs with
      | (evs, none) => evs
      | (evs, some held') => evs ++ watchRun held' rest

/-- One client-visible store operation, for reasoning about all states
reachable through the RPC surface. -/
inductive Op where
  | opAdd : Item → Op
  | opRemove : ItemIdentifier → Op
  | opGet : ItemIdentifier → Op
  | opGetAll : Op
  | opDecrease : QuantityChangeRequest → Op
  | opIncrease : QuantityChangeRequest → Op
  | opUpdatePrice : PriceChangeRequest → Op

/-- The map after one operation is handled. -/
def applyOp (m : InventoryMap) : Op → InventoryMap
  | Op.opAdd it => (add m it).2
  | Op.opRemove id => (remove m id).2
  | Op.opGet id => (get m id).2
  | Op.opGetAll => (get_all m).2
  | Op.opDecrease req => (decrease_quantity m req).2
  | Op.opIncrease req => (increase_quantity m req).2
  | Op.opUpdatePrice req => (update_price m req).2

/-- The map reached from the empty map by a sequence of operations. -/
def runOps (ops : List Op) : InventoryMap :=
  ops.foldl applyOp []

/-- The key coherence invariant of claim C10: each binding's key equals the
SKU inside the stored item's identifier. -/
def keyInv (m : InventoryMap) : Prop :=
  ∀ p ∈ m, p.2.identifier = some ⟨p.1⟩

instance (m : InventoryMap) : Decidable (keyInv m) := by
  unfold keyInv
  infer_instance

/-- Whether a handler result is an error response. -/
def isErr : Except Status α → Bool
  | Except.error _ => true
  | Except.ok _ => false

/-- Whether a watch stream event is an error (terminal) event. -/
def isErrEvent : WatchEvent → Bool
  | WatchEvent.error _ => true
  | WatchEvent.item _ => false

/-!
### Float-faithful model

The source's `price` fields are IEEE floats.  The handlers never do
arithmetic on them; they only evaluate `price <= 0.00` and
`stock.price == item.price`.  The `Rat` embedding above cannot express NaN,
which passes both of those checks (every IEEE comparison involving NaN is
false), so for the reachable-state invariant the model below carries prices
in a type with an explicit NaN and embeds the two comparisons with IEEE
semantics.  Ordered float values (the infinities included, which the two
comparisons order like extreme finite values) are carried as rationals.
-/

/-- Modelled from the spec: an IEEE float price as the source's comparisons
observe it: NaN, or an ordered value. -/
inductive FloatPrice where
  | nan : FloatPrice
  | ordered : Rat → FloatPrice
deriving DecidableEq, Repr

/-- IEEE `<=` between prices: false whenever either side is NaN. -/
def fle : FloatPrice → FloatPrice → Bool
  | FloatPrice.ordered a, FloatPrice.ordered b => decide (a ≤ b)
  | _, _ => false

/-- IEEE `<` between prices: false whenever either side is NaN. -/
def flt : FloatPrice → FloatPrice → Bool
  | FloatPrice.ordered a, FloatPrice.ordered b => decide (a < b)
  | _, _ => false

/-- IEEE `==` between prices: false whenever either side is NaN. -/
def feq : FloatPrice → FloatPrice → Bool
  | FloatPrice.ordered a, FloatPrice.ordered b => decide (a = b)
  | _, _ => false

/-- Stock payload of the float-faithful model. -/
structure FItemStock where
  quantity : Nat
  price : FloatPrice
deriving DecidableEq, Repr

/-- Stock record of the float-faithful model. -/
structure FItem where
  identifier : Option ItemIdentifier
  stock : Option FItemStock
deriving DecidableEq, Repr

/-- Price change request of the float-faithful model. -/
structure FPriceChangeRequest where
  sku : String
  price : FloatPrice
deriving DecidableEq, Repr

/-- Update response of the float-faithful model. -/
structure FInventoryUpdateResponse where
  status : String
  price : FloatPrice
  quantity : Nat
deriving DecidableEq, Repr

/-- The shared map of the float-faithful model. -/
abbrev FInventoryMap := List (String × FItem)

/-- `HashMap::get` of the float-faithful model. -/
def fmapGet : FInventoryMap → String → Option FItem
  | [], _ => none
  | (k, v) :: rest, sku => if k = sku then some v else fmapGet rest sku

/-- `HashMap::insert` of the float-faithful model (key known absent). -/
def fmapInsert (m : FInventoryMap) (k : String) (v : FItem) : FInventoryMap :=
  m ++ [(k, v)]

/-- `HashMap::remove` of the float-faithful model. -/
def fmapRemove : FInventoryMap → String → FInventoryMap
  | [], _ => []
  | (k, v) :: rest, sku =>
      if k = sku then fmapRemove rest sku else (k, v) :: fmapRemove rest sku

/-- In-place mutation through `HashMap::get_mut`, float-faithful model. -/
def fmapSet : FInventoryMap → String → FItem → FInventoryMap
  | [], _, _ => []
  | (k, v) :: rest, sku, it =>
      if k = sku then (k, it) :: fmapSet rest sku it else (k, v) :: fmapSet rest sku it

/-- Handler `add` over the float-faithful model (src/server.rs lines 41-71);
the price check is the source's `stock.price <= 0.00`, which NaN passes. -/
def fadd (m : FInventoryMap) (item : FItem) :
    Except Status InventoryChangeResponse × FInventoryMap :=
  match item.identifier with
  | none => (Except.error (Status.invalid_argument NO_ID_ERR), m)
  | some id =>
      if id.sku.isEmpty then (Except.error (Status.invalid_argument EMPTY_SKU_ERR), m)
      else
        match item.stock with
        | none => (Except.error (Status.invalid_argument NO_STOCK_ERR), m)
        | some stock =>
            if fle stock.price (FloatPrice.ordered 0) = true then
              (Except.error (Status.invalid_argument BAD_PRICE_ERR), m)
            else
              if (fmapGet m id.sku).isSome then
                (Except.error (Status.already_exists DUP_ITEM_ERR), m)
              else
                (Except.ok ⟨"success"⟩, fmapInsert m id.sku item)

/-- Handler `remove` over the float-faithful model (src/server.rs 73-92). -/
def fremove (m : FInventoryMap) (id : ItemIdentifier) :
    Except Status InventoryChangeResponse × FInventoryMap :=
  if id.sku.isEmpty then (Except.error (Status.invalid_argument EMPTY_SKU_ERR), m)
  else
    match fmapGet m id.sku with
    | some _ => (Except.ok ⟨"success: item was removed"⟩, fmapRemove m id.sku)
    | none => (Except.ok ⟨"sucsees: item did not exist"⟩, fmapRemove m id.sku)

/-- Handler `get` over the float-faithful model (src/server.rs 94-111). -/
def fget (m : FInventoryMap) (id : ItemIdentifier) :
    Except Status FItem × FInventoryMap :=
  if id.sku.isEmpty then (Except.error (Status.invalid_argument EMPTY_SKU_ERR), m)
  else
    match fmapGet m id.sku with
    | none => (Except.error (Status.not_found NO_ITEM_ERR), m)
    | some it => (Except.ok it, m)

/-- Handler `get_all` over the float-faithful model (src/server.rs 113-123). -/
def fget_all (m : FInventoryMap) : Except Status (List FItem) × FInventoryMap :=
  (Except.ok (m.map Prod.snd), m)

/-- Handler `decrease_quantity` over the float-faithful model
(src/server.rs 125-162); the price is never inspected or changed. -/
def fdecrease_quantity (m : FInventoryMap) (req : QuantityChangeRequest) :
    Except Status FInventoryUpdateResponse × FInventoryMap :=
  match fmapGet m req.sku with
  | none => (Except.error (Status.not_found NO_ITEM_ERR), m)
  | some it =>
      match it.stock with
      | none => (Except.error (Status.internal NO_STOCK_ERR), m)
      | some stock =>
          if req.sku.isEmpty then (Except.error (Status.invalid_argument EMPTY_SKU_ERR), m)
          else if req.quantity = 0 then
            (Except.error (Status.invalid_argument DUP_QUANT_ERR), m)
          else if req.quantity > stock.quantity then
            (Except.error (Status.invalid_argument LOW_QUANT_ERR), m)
          else
            let newStock : FItemStock := { stock with quantity := stock.quantity - req.quantity }
            (Except.ok { status := "success", price := newStock.price, quantity := newStock.quantity },
             fmapSet m req.sku { it with stock := some newStock })

/-- Handler `increase_quantity` over the float-faithful model
(src/server.rs 164-196); the price is never inspected or changed. -/
def fincrease_quantity (m : FInventoryMap) (req : QuantityChangeRequest) :
    Except Status FInventoryUpdateResponse × FInventoryMap :=
  match fmapGet m req.sku with
  | none => (Except.error (Status.not_found NO_ITEM_ERR), m)
  | some it =>
      match it.stock with
      | none => (Except.error (Status.internal NO_STOCK_ERR), m)
      | some stock =>
          if req.sku.isEmpty then (Except.error (Status.invalid_argument EMPTY_SKU_ERR), m)
          else if req.quantity = 0 then
            (Except.error (Status.invalid_argument DUP_QUANT_ERR), m)
          else
            let newStock : FItemStock := { stock with quantity := stock.quantity + req.quantity }
            (Except.ok { status := "success", price := newStock.price, quantity := newStock.quantity },
             fmapSet m req.sku { it with stock := some newStock })

/-- Handler `update_price` over the float-faithful model (src/server.rs
198-234): the validity check is the source's `item.price <= 0.0` and the
duplicate check the source's `stock.price == item.price`, both of which a
NaN request price passes. -/
def fupdate_price (m : FInventoryMap) (req : FPriceChangeRequest) :
    Except Status FInventoryUpdateResponse × FInventoryMap :=
  if req.sku.isEmpty then (Except.error (Status.invalid_argument EMPTY_SKU_ERR), m)
  else if fle req.price (FloatPrice.ordered 0) = true then
    (Except.error (Status.invalid_argument BAD_PRICE_ERR), m)
  else
    match fmapGet m req.sku with
    | none => (Except.error (Status.not_found NO_ITEM_ERR), m)
    | some it =>
        match it.stock with
        | none => (Except.error (Status.internal NO_STOCK_ERR), m)
        | some stock =>
            if feq stock.price req.price = true then
              (Except.error (Status.invalid_argument DUP_PRICE_ERR), m)
            else
              let newStock : FItemStock := { stock with price := req.price }
              (Except.ok { status := "success", price := newStock.price, quantity := newStock.quantity },
               fmapSet m req.sku { it with stock := some newStock })

/-- One client-visible operation of the float-faithful model. -/
inductive FOp where
  | opAdd : FItem → FOp
  | opRemove : ItemIdentifier → FOp
  | opGet : ItemIdentifier → FOp
  | opGetAll : FOp
  | opDecrease : QuantityChangeRequest → FOp
  | opIncrease : QuantityChangeRequest → FOp
  | opUpdatePrice : FPriceChangeRequest → FOp

/-- The float-faithful map after one operation is handled. -/
def fapplyOp (m : FInventoryMap) : FOp → FInventoryMap
  | FOp.opAdd it => (fadd m it).2
  | FOp.opRemove id => (fremove m id).2
  | FOp.opGet id => (fget m id).2
  | FOp.opGetAll => (fget_all m).2
  | FOp.opDecrease req => (fdecrease_quantity m req).2
  | FOp.opIncrease req => (fincrease_quantity m req).2
  | FOp.opUpdatePrice req => (fupdate_price m req).2

/-- The float-faithful map reached from the empty map by a sequence of
operations. -/
def frunOps (ops : List FOp) : FInventoryMap :=
  ops.foldl fapplyOp []

/-- The store invariant the float-faithful model actually maintains: every
stored item has a present stock whose quantity is non-negative and whose
price never satisfies the IEEE comparison `price <= 0` (so it is strictly
positive or NaN), and SKU keys are unique. -/
def fstoreInv (m : FInventoryMap) : Prop :=
  (∀ p ∈ m, ∃ s, p.2.stock = some s ∧
    fle s.price (FloatPrice.ordered 0) = false ∧ 0 ≤ s.quantity) ∧
  (m.map Prod.fst).Nodup

/-! ### Association list lemmas -/

theorem mapGet_insert_self (m : InventoryMap) (k : String) (v : Item) :
    mapGet m k = none → mapGet (mapInsert m k v) k = some v := by
  induction m with
  | nil => simp [mapGet, mapInsert]
  | cons p rest ih =>
      obtain ⟨k₁, v₁⟩ := p
      intro h
      by_cases hk : k₁ = k
      · simp [mapGet, hk] at h
      · simp only [mapGet, mapInsert, List.cons_append, if_neg hk] at h ⊢
        exact ih h

theorem mapGet_insert_ne (m : InventoryMap) (k : String) (v : Item) (k' : String) :
    k' ≠ k → mapGet (mapInsert m k v) k' = mapGet m k' := by
  intro hne
  have hne' : ¬ k = k' := fun h => hne h.symm
  induction m with
  | nil => simp [mapGet, mapInsert, hne']
  | cons p rest ih =>
      obtain ⟨k₁, v₁⟩ := p
      by_cases hk : k₁ = k'
      · simp [mapGet, mapInsert, hk]
      · simp only [mapGet, mapInsert, List.cons_append, if_neg hk] at ih ⊢
        exact ih

theorem mapGet_mapSet (m : InventoryMap) (k : String) (it : Item) (k' : String) :
    mapGet (mapSet m k it) k' =
      if k = k' then (mapGet m k').map (fun _ => it) else mapGet m k' := by
  induction m with
  | nil => simp [mapGet, mapSet]
  | cons p rest ih =>
      obtain ⟨k₁, v₁⟩ := p
      by_cases h1 : k₁ = k
      · subst h1
        by_cases h2 : k₁ = k'
        · subst h2
          simp [mapSet, mapGet]
        · simp [mapSet, mapGet, h2, ih]
      · by_cases h2 : k₁ = k'
        · subst h2
          have h1' : ¬ k = k₁ := fun h => h1 h.symm
          simp [mapSet, mapGet, h1, h1']
        · simp [mapSet, mapGet, h1, h2, ih]

theorem keys_mapSet (m : InventoryMap) (k : String) (it : Item) :
    (mapSet m k it).map Prod.fst = m.map Prod.fst := by
  induction m with
  | nil => rfl
  | cons p rest ih =>
      obtain ⟨k₁, v₁⟩ := p
      by_cases h : k₁ = k <;> simp [mapSet, h, ih]

theorem mem_mapSet (m : InventoryMap) (k : String) (it : Item) (p : String × Item) :
    p ∈ mapSet m k it → (p.1 = k ∧ p.2 = it) ∨ p ∈ m := by
  induction m with
  | nil => simp [mapSet]
  | cons q rest ih =>
      obtain ⟨k₁, v₁⟩ := q
      by_cases h : k₁ = k
      · simp only [mapSet, if_pos h, List.mem_cons]
        rintro (rfl | hmem)
        · exact Or.inl ⟨h, rfl⟩
        · rcases ih hmem with h' | h'
          · exact Or.inl h'
          · exact Or.inr (Or.inr h')
      · simp only [mapSet, if_neg h, List.mem_cons]
        rintro (rfl | hmem)
        · exact Or.inr (Or.inl rfl)
        · rcases ih hmem with h' | h'
          · exact Or.inl h'
          · exact Or.inr (Or.inr h')

theorem mapGet_mapRemove (m : InventoryMap) (k k' : String) :
    mapGet (mapRemove m k) k' = if k = k' then none else mapGet m k' := by
  induction m with
  | nil => simp [mapGet, mapRemove]
  | cons p rest ih =>
      obtain ⟨k₁, v₁⟩ := p
      by_cases h1 : k₁ = k
      · subst h1
        by_cases h2 : k₁ = k'
        · subst h2
          simp [mapRemove, mapGet, ih]
        · simp [mapRemove, mapGet, h2, ih]
      · by_cases h2 : k₁ = k'
        · subst h2
          have h1' : ¬ k = k₁ := fun h => h1 h.symm
          simp [mapRemove, mapGet, h1, h1']
        · simp [mapRemove, mapGet, h1, h2, ih]

theorem mapRemove_sublist (m : InventoryMap) (k : String) :
    List.Sublist (mapRemove m k) m := by
  induction m with
  | nil => simp [mapRemove]
  | cons p rest ih =>
      obtain ⟨k₁, v₁⟩ := p
      by_cases h : k₁ = k
      · simpa [mapRemove, h] using ih.cons (k₁, v₁)
      · simpa [mapRemove, h] using ih.cons₂ (k₁, v₁)

theorem mem_mapRemove (m : InventoryMap) (k : String) (p : String × Item) :
    p ∈ mapRemove m k → p ∈ m :=
  fun h => (mapRemove_sublist m k).mem h

theorem mapGet_eq_none_iff (m : InventoryMap) (k : String) :
    mapGet m k = none ↔ k ∉ m.map Prod.fst := by
  induction m with
  | nil => simp [mapGet]
  | cons p rest ih =>
      obtain ⟨k₁, v₁⟩ := p
      by_cases h : k₁ = k
      · subst h
        simp [mapGet]
      · have h' : ¬ k = k₁ := fun hh => h hh.symm
        simp [mapGet, h, h', ih]

theorem mapGet_some_mem (m : InventoryMap) (k : String) (v : Item) :
    mapGet m k = some v → (k, v) ∈ m := by
  induction m with
  | nil => simp [mapGet]
  | cons p rest ih =>
      obtain ⟨k₁, v₁⟩ := p
      intro h'
      by_cases h : k₁ = k
      · subst h
        simp [mapGet] at h'
        subst h'
        exact List.mem_cons_self _ _
      · simp only [mapGet, if_neg h] at h'
        exact List.mem_cons_of_mem _ (ih h')

/-! ### Association list lemmas, float-faithful model -/

theorem mem_fmapSet (m : FInventoryMap) (k : String) (it : FItem) (p : String × FItem) :
    p ∈ fmapSet m k it → (p.1 = k ∧ p.2 = it) ∨ p ∈ m := by
  induction m with
  | nil => simp [fmapSet]
  | cons q rest ih =>
      obtain ⟨k₁, v₁⟩ := q
      by_cases h : k₁ = k
      · simp only [fmapSet, if_pos h, List.mem_cons]
        rintro (rfl | hmem)
        · exact Or.inl ⟨h, rfl⟩
        · rcases ih hmem with h' | h'
          · exact Or.inl h'
          · exact Or.inr (Or.inr h')
      · simp only [fmapSet, if_neg h, List.mem_cons]
        rintro (rfl | hmem)
        · exact Or.inr (Or.inl rfl)
        · rcases ih hmem with h' | h'
          · exact Or.inl h'
          · exact Or.inr (Or.inr h')

theorem keys_fmapSet (m : FInventoryMap) (k : String) (it : FItem) :
    (fmapSet m k it).map Prod.fst = m.map Prod.fst := by
  induction m with
  | nil => rfl
  | cons p rest ih =>
      obtain ⟨k₁, v₁⟩ := p
      by_cases h : k₁ = k <;> simp [fmapSet, h, ih]

theorem fmapRemove_sublist (m : FInventoryMap) (k : String) :
    List.Sublist (fmapRemove m k) m := by
  induction m with
  | nil => simp [fmapRemove]
  | cons p rest ih =>
      obtain ⟨k₁, v₁⟩ := p
      by_cases h : k₁ = k
      · simpa [fmapRemove, h] using ih.cons (k₁, v₁)
      · simpa [fmapRemove, h] using ih.cons₂ (k₁, v₁)

theorem mem_fmapRemove (m : FInventoryMap) (k : String) (p : String × FItem) :
    p ∈ fmapRemove m k → p ∈ m :=
  fun h => (fmapRemove_sublist m k).mem h

theorem fmapGet_eq_none_iff (m : FInventoryMap) (k : String) :
    fmapGet m k = none ↔ k ∉ m.map Prod.fst := by
  induction m with
  | nil => simp [fmapGet]
  | cons p rest ih =>
      obtain ⟨k₁, v₁⟩ := p
      by_cases h : k₁ = k
      · subst h
        simp [fmapGet]
      · have h' : ¬ k = k₁ := fun hh => h hh.symm
        simp [fmapGet, h, h', ih]

theorem fmapGet_some_mem (m : FInventoryMap) (k : String) (v : FItem) :
    fmapGet m k = some v → (k, v) ∈ m := by
  induction m with
  | nil => simp [fmapGet]
  | cons p rest ih =>
      obtain ⟨k₁, v₁⟩ := p
      intro h'
      by_cases h : k₁ = k
      · subst h
        simp [fmapGet] at h'
        subst h'
        exact List.mem_cons_self _ _
      · simp only [fmapGet, if_neg h] at h'
        exact List.mem_cons_of_mem _ (ih h')

/-! ### Invariant preservation, float-faithful model -/

theorem fstoreInv_fmapSet_stock (m : FInventoryMap) (sku : String) (it : FItem)
    (s : FItemStock) (h : fstoreInv m)
    (hp : fle s.price (FloatPrice.ordered 0) = false) :
    fstoreInv (fmapSet m sku { it with stock := some s }) := by
  constructor
  · intro p hin
    rcases mem_fmapSet m sku _ p hin with h' | h'
    · exact ⟨s, by simp [h'.2], hp, Nat.zero_le _⟩
    · exact h.1 p h'
  · rw [keys_fmapSet]
    exact h.2

theorem fstoreInv_fadd (m : FInventoryMap) (it : FItem) (h : fstoreInv m) :
    fstoreInv (fadd m it).2 := by
  unfold fadd
  split
  · exact h
  · rename_i id hid
    split
    · exact h
    · split
      · exact h
      · rename_i s hstock
        split
        · exact h
        · split
          · exact h
          · rename_i hp hdup
            have hnone : fmapGet m id.sku = none := by
              cases hg : fmapGet m id.sku
              · rfl
              · rw [hg] at hdup
                simp at hdup
            have hkey : id.sku ∉ m.map Prod.fst := (fmapGet_eq_none_iff m id.sku).mp hnone
            constructor
            · intro p hin
              rcases List.mem_append.mp hin with h' | h'
              · exact h.1 p h'
              · have hp' : p = (id.sku, it) := by simpa using h'
                subst hp'
                exact ⟨s, hstock, by simpa using hp, Nat.zero_le _⟩
            · simp only [fmapInsert, List.map_append, List.map_cons, List.map_nil]
              rw [List.nodup_append]
              exact ⟨h.2, List.nodup_singleton _, by simpa using hkey⟩

theorem fstoreInv_fremove (m : FInventoryMap) (id : ItemIdentifier) (h : fstoreInv m) :
    fstoreInv (fremove m id).2 := by
  unfold fremove
  split
  · exact h
  · have hrem : ∀ m' : FInventoryMap, m' = fmapRemove m id.sku → fstoreInv m' := by
      rintro m' rfl
      constructor
      · intro p hin
        exact h.1 p (mem_fmapRemove m id.sku p hin)
      · exact h.2.sublist ((fmapRemove_sublist m id.sku).map Prod.fst)
    split
    · exact hrem _ rfl
    · exact hrem _ rfl

theorem fstoreInv_fdecrease (m : FInventoryMap) (req : QuantityChangeRequest)
    (h : fstoreInv m) : fstoreInv (fdecrease_quantity m req).2 := by
  unfold fdecrease_quantity
  split
  · exact h
  · rename_i it hg
    split
    · exact h
    · rename_i s hstock
      split
      · exact h
      · split
        · exact h
        · split
          · exact h
          · obtain ⟨s', hs', hp', -⟩ := h.1 _ (fmapGet_some_mem m req.sku it hg)
            rw [hstock] at hs'
            injection hs' with hss
            subst hss
            exact fstoreInv_fmapSet_stock m req.sku it _ h hp'

theorem fstoreInv_fincrease (m : FInventoryMap) (req : QuantityChangeRequest)
    (h : fstoreInv m) : fstoreInv (fincrease_quantity m req).2 := by
  unfold fincrease_quantity
  split
  · exact h
  · rename_i it hg
    split
    · exact h
    · rename_i s hstock
      split
      · exact h
      · split
        · exact h
        · obtain ⟨s', hs', hp', -⟩ := h.1 _ (fmapGet_some_mem m req.sku it hg)
          rw [hstock] at hs'
          injection hs' with hss
          subst hss
          exact fstoreInv_fmapSet_stock m req.sku it _ h hp'

theorem fstoreInv_fupdate_price (m : FInventoryMap) (req : FPriceChangeRequest)
    (h : fstoreInv m) : fstoreInv (fupdate_price m req).2 := by
  unfold fupdate_price
  split
  · exact h
  · split
    · exact h
    · rename_i hp
      split
      · exact h
      · rename_i it hg
        split
        · exact h
        · split
          · exact h
          · exact fstoreInv_fmapSet_stock m req.sku it _ h (by simpa using hp)

theorem fstoreInv_fapplyOp (m : FInventoryMap) (op : FOp) (h : fstoreInv m) :
    fstoreInv (fapplyOp m op) := by
  cases op with
  | opAdd it => exact fstoreInv_fadd m it h
  | opRemove id => exact fstoreInv_fremove m id h
  | opGet id =>
      show fstoreInv (fget m id).2
      unfold fget
      split
      · exact h
      · split
        · exact h
        · exact h
  | opGetAll => exact h
  | opDecrease req => exact fstoreInv_fdecrease m req h
  | opIncrease req => exact fstoreInv_fincrease m req h
  | opUpdatePrice req => exact fstoreInv_fupdate_price m req h

/-! ### Invariant preservation for each handler -/

theorem keyInv_mapSet_stock (m : InventoryMap) (sku : String) (it : Item) (s : ItemStock)
    (h : keyInv m) (hg : mapGet m sku = some it) :
    keyInv (mapSet m sku { it with stock := some s }) := by
  intro p hin
  rcases mem_mapSet m sku _ p hin with h' | h'
  · have h2 : p.2.identifier = it.identifier := by rw [h'.2]
    rw [h2, h'.1]
    exact h _ (mapGet_some_mem m sku it hg)
  · exact h p h'

theorem keyInv_add (m : InventoryMap) (it : Item) (h : keyInv m) :
    keyInv (add m it).2 := by
  unfold add
  split
  · exact h
  · rename_i id hid
    split
    · exact h
    · split
      · exact h
      · split
        · exact h
        · split
          · exact h
          · intro p hin
            rcases List.mem_append.mp hin with h' | h'
            · exact h p h'
            · have hp' : p = (id.sku, it) := by simpa using h'
              subst hp'
              simpa using hid

theorem keyInv_remove (m : InventoryMap) (id : ItemIdentifier) (h : keyInv m) :
    keyInv (remove m id).2 := by
  unfold remove
  split
  · exact h
  · have hrem : ∀ m' : InventoryMap, m' = mapRemove m id.sku → keyInv m' := by
      rintro m' rfl
      intro p hin
      exact h p (mem_mapRemove m id.sku p hin)
    split
    · exact hrem _ rfl
    · exact hrem _ rfl

theorem keyInv_decrease (m : InventoryMap) (req : QuantityChangeRequest)
    (h : keyInv m) : keyInv (decrease_quantity m req).2 := by
  unfold decrease_quantity
  split
  · exact h
  · rename_i it hg
    split
    · exact h
    · split
      · exact h
      · split
        · exact h
        · split
          · exact h
          · exact keyInv_mapSet_stock m req.sku it _ h hg

theorem keyInv_increase (m : InventoryMap) (req : QuantityChangeRequest)
    (h : keyInv m) : keyInv (increase_quantity m req).2 := by
  unfold increase_quantity
  split
  · exact h
  · rename_i it hg
    split
    · exact h
    · split
      · exact h
      · split
        · exact h
        · exact keyInv_mapSet_stock m req.sku it _ h hg

theorem keyInv_update_price (m : InventoryMap) (req : PriceChangeRequest)
    (h : keyInv m) : keyInv (update_price m req).2 := by
  unfold update_price
  split
  · exact h
  · split
    · exact h
    · split
      · exact h
      · rename_i it hg
        split
        · exact h
        · split
          · exact h
          · exact keyInv_mapSet_stock m req.sku it _ h hg

theorem keyInv_applyOp (m : InventoryMap) (op : Op) (h : keyInv m) :
    keyInv (applyOp m op) := by
  cases op with
  | opAdd it => exact keyInv_add m it h
  | opRemove id => exact keyInv_remove m id h
  | opGet id =>
      show keyInv (get m id).2
      unfold get
      split
      · exact h
      · split
        · exact h
        · exact h
  | opGetAll => exact h
  | opDecrease req => exact keyInv_decrease m req h
  | opIncrease req => exact keyInv_increase m req h
  | opUpdatePrice req => exact keyInv_update_price m req h

/-! ### Claim theorems -/

/-- Counterexample to C2 as stated: NaN passes the source's
`stock.price <= 0.00` check, so adding an item priced NaN succeeds, the
reached store holds that record, and its price is not strictly positive
(IEEE `0 < NaN` is false). -/
theorem reachable_nan_price_counterexample :
    (fadd [] ⟨some ⟨"A1"⟩, some ⟨10, FloatPrice.nan⟩⟩).1 = Except.ok ⟨"success"⟩ ∧
    fmapGet (frunOps [FOp.opAdd ⟨some ⟨"A1"⟩, some ⟨10, FloatPrice.nan⟩⟩]) "A1" =
      some ⟨some ⟨"A1"⟩, some ⟨10, FloatPrice.nan⟩⟩ ∧
    flt (FloatPrice.ordered 0) FloatPrice.nan = false :=
  ⟨rfl, rfl, rfl⟩

/-- Claim C2 as amended: every inventory map reachable from the empty map by
any sequence of operations satisfies the invariant the validations actually
maintain: each stored item has a present stock whose quantity is a
non-negative integer and whose price never satisfies the IEEE comparison
`price <= 0` (so it is strictly positive or NaN, which the source's checks
cannot reject), and the SKU keys are unique. -/
theorem reachable_fstoreInv (ops : List FOp) : fstoreInv (frunOps ops) := by
  have gen : ∀ (l : List FOp) (m : FInventoryMap),
      fstoreInv m → fstoreInv (l.foldl fapplyOp m) := by
    intro l
    induction l with
    | nil => exact fun m hm => hm
    | cons op rest ih => exact fun m hm => ih _ (fstoreInv_fapplyOp m op hm)
  refine gen ops [] ⟨?_, ?_⟩
  · intro p hp
    simp at hp
  · simp

/-- Claim C10: in every inventory map reachable from the empty map, each
binding's key equals the SKU held in the stored item's identifier, and
consequently a successful get returns an item whose identifier carries the
requested SKU. -/
theorem reachable_keyInv (ops : List Op) :
    keyInv (runOps ops) ∧
    ∀ (sku : String) (it : Item),
      (get (runOps ops) ⟨sku⟩).1 = Except.ok it → it.identifier = some ⟨sku⟩ := by
  have gen : ∀ (l : List Op) (m : InventoryMap), keyInv m → keyInv (l.foldl applyOp m) := by
    intro l
    induction l with
    | nil => exact fun m hm => hm
    | cons op rest ih => exact fun m hm => ih _ (keyInv_applyOp m op hm)
  have hk : keyInv (runOps ops) := by
    refine gen ops [] ?_
    intro p hp
    simp at hp
  refine ⟨hk, ?_⟩
  intro sku it hget
  unfold get at hget
  split at hget
  · simp at hget
  · split at hget
    · simp at hget
    · rename_i it₀ hg
      simp only [Except.ok.injEq] at hget
      subst hget
      exact hk _ (mapGet_some_mem _ _ _ hg)

/-- Witness for C10 at a concrete one-operation history. -/
theorem reachable_keyInv_witness :
    (⟨some ⟨"A1"⟩, some ⟨10, 5⟩⟩ : Item).identifier = some ⟨"A1"⟩ :=
  (reachable_keyInv [Op.opAdd ⟨some ⟨"A1"⟩, some ⟨10, 5⟩⟩]).2 "A1" _ rfl

/-- Claim C9: at a poll that finds the record present (which is how the loop
sees a record removed and re-added under the same SKU between two polls), no
terminal not-found event is emitted: the loop emits one change event when the
fetched value differs from the held snapshot and nothing when it is equal,
and in both cases keeps polling with that value as the new snapshot. -/
theorem watch_present_poll (held it : Item) (rest : List (Option Item)) :
    watchRun held (some it :: rest) =
      (if it = held then [] else [WatchEvent.item it]) ++ watchRun it rest ∧
    List.filter isErrEvent (watchRun held (some it :: rest)) =
      List.filter isErrEvent (watchRun it rest) := by
  by_cases h : it = held
  · subst h
    constructor
    · simp [watchRun, watchPoll]
    · simp [watchRun, watchPoll]
  · constructor
    · simp [watchRun, watchPoll, h]
    · simp [watchRun, watchPoll, h, isErrEvent]

/-- Claim C1: whenever a handler returns an error, the inventory map after
the call equals the map before it, for each of the six store operations. -/
theorem error_leaves_map_unchanged (m : InventoryMap) (it : Item)
    (id₁ id₂ : ItemIdentifier) (rd ri : QuantityChangeRequest) (rp : PriceChangeRequest) :
    (isErr (add m it).1 = true → (add m it).2 = m) ∧
    (isErr (remove m id₁).1 = true → (remove m id₁).2 = m) ∧
    (isErr (get m id₂).1 = true → (get m id₂).2 = m) ∧
    (isErr (decrease_quantity m rd).1 = true → (decrease_quantity m rd).2 = m) ∧
    (isErr (increase_quantity m ri).1 = true → (increase_quantity m ri).2 = m) ∧
    (isErr (update_price m rp).1 = true → (update_price m rp).2 = m) := by
  refine ⟨?_, ?_, ?_, ?_, ?_, ?_⟩
  · unfold add
    repeat' split
    all_goals simp [isErr]
  · unfold remove
    repeat' split
    all_goals simp [isErr]
  · unfold get
    repeat' split
    all_goals simp [isErr]
  · unfold decrease_quantity
    repeat' split
    all_goals simp [isErr]
  · unfold increase_quantity
    repeat' split
    all_goals simp [isErr]
  · unfold update_price
    repeat' split
    all_goals simp [isErr]

/-- Witness for C1: concrete failing calls of all six operations on the
empty map leave it empty. -/
theorem error_leaves_map_unchanged_witness :
    (add [] ⟨none, none⟩).2 = [] ∧ (remove [] ⟨""⟩).2 = [] ∧ (get [] ⟨""⟩).2 = [] ∧
    (decrease_quantity [] ⟨"X", 1⟩).2 = [] ∧ (increase_quantity [] ⟨"X", 1⟩).2 = [] ∧
    (update_price [] ⟨"", 1⟩).2 = [] := by
  have h := error_leaves_map_unchanged [] ⟨none, none⟩ ⟨""⟩ ⟨""⟩ ⟨"X", 1⟩ ⟨"X", 1⟩ ⟨"", 1⟩
  exact ⟨h.1 rfl, h.2.1 rfl, h.2.2.1 rfl, h.2.2.2.1 rfl, h.2.2.2.2.1 rfl, h.2.2.2.2.2 rfl⟩

/-- Claim C3: adding a valid item (present identifier with non-empty SKU,
present stock with positive price) whose SKU is not yet stored succeeds, and
a subsequent get with that SKU returns an item equal to the one added. -/
theorem add_then_get (m : InventoryMap) (it : Item) (id : ItemIdentifier) (s : ItemStock)
    (hid : it.identifier = some id) (hsku : ¬ id.sku.isEmpty = true)
    (hstock : it.stock = some s) (hprice : 0 < s.price)
    (habs : mapGet m id.sku = none) :
    (add m it).1 = Except.ok ⟨"success"⟩ ∧
    (get (add m it).2 id).1 = Except.ok it := by
  have hadd : add m it = (Except.ok ⟨"success"⟩, mapInsert m id.sku it) := by
    unfold add
    rw [hid]
    simp [hsku, hstock, not_le.mpr hprice, habs]
  refine ⟨by rw [hadd], ?_⟩
  rw [hadd]
  unfold get
  rw [if_neg hsku, mapGet_insert_self m id.sku it habs]

/-- Witness for C3 at a concrete item on the empty map. -/
theorem add_then_get_witness :
    (add [] ⟨some ⟨"A1"⟩, some ⟨10, 5⟩⟩).1 = Except.ok ⟨"success"⟩ ∧
    (get (add [] ⟨some ⟨"A1"⟩, some ⟨10, 5⟩⟩).2 ⟨"A1"⟩).1 =
      Except.ok ⟨some ⟨"A1"⟩, some ⟨10, 5⟩⟩ :=
  add_then_get [] ⟨some ⟨"A1"⟩, some ⟨10, 5⟩⟩ ⟨"A1"⟩ ⟨10, 5⟩ rfl (by decide) rfl
    (by norm_num) rfl

/-- Claim C4: decrease checks its preconditions in exactly the source order
and returns the error of the first violated one: record existence, stock
presence, non-empty SKU, non-zero amount, and amount at most the current
quantity. -/
theorem decrease_error_precedence (m : InventoryMap) (req : QuantityChangeRequest) :
    (mapGet m req.sku = none →
      (decrease_quantity m req).1 = Except.error (Status.not_found NO_ITEM_ERR)) ∧
    (∀ it, mapGet m req.sku = some it → it.stock = none →
      (decrease_quantity m req).1 = Except.error (Status.internal NO_STOCK_ERR)) ∧
    (∀ it s, mapGet m req.sku = some it → it.stock = some s → req.sku.isEmpty = true →
      (decrease_quantity m req).1 = Except.error (Status.invalid_argument EMPTY_SKU_ERR)) ∧
    (∀ it s, mapGet m req.sku = some it → it.stock = some s → ¬ req.sku.isEmpty = true →
      req.quantity = 0 →
      (decrease_quantity m req).1 = Except.error (Status.invalid_argument DUP_QUANT_ERR)) ∧
    (∀ it s, mapGet m req.sku = some it → it.stock = some s → ¬ req.sku.isEmpty = true →
      req.quantity ≠ 0 → s.quantity < req.quantity →
      (decrease_quantity m req).1 = Except.error (Status.invalid_argument LOW_QUANT_ERR)) := by
  refine ⟨?_, ?_, ?_, ?_, ?_⟩
  · intro hg
    simp [decrease_quantity, hg]
  · intro it hg hs
    simp [decrease_quantity, hg, hs]
  · intro it s hg hs hsku
    simp [decrease_quantity, hg, hs, hsku]
  · intro it s hg hs hsku h0
    simp [decrease_quantity, hg, hs, hsku, h0]
  · intro it s hg hs hsku h0 hlt
    simp [decrease_quantity, hg, hs, hsku, h0, hlt, Nat.not_le.mpr hlt]

/-- Witness for C4: one concrete call per precedence case. -/
theorem decrease_error_precedence_witness :
    (decrease_quantity [] ⟨"A1", 1⟩).1 = Except.error (Status.not_found NO_ITEM_ERR) ∧
    (decrease_quantity [("A1", ⟨some ⟨"A1"⟩, none⟩)] ⟨"A1", 1⟩).1 =
      Except.error (Status.internal NO_STOCK_ERR) ∧
    (decrease_quantity [("", ⟨some ⟨""⟩, some ⟨10, 5⟩⟩)] ⟨"", 1⟩).1 =
      Except.error (Status.invalid_argument EMPTY_SKU_ERR) ∧
    (decrease_quantity [("A1", ⟨some ⟨"A1"⟩, some ⟨10, 5⟩⟩)] ⟨"A1", 0⟩).1 =
      Except.error (Status.invalid_argument DUP_QUANT_ERR) ∧
    (decrease_quantity [("A1", ⟨some ⟨"A1"⟩, some ⟨10, 5⟩⟩)] ⟨"A1", 11⟩).1 =
      Except.error (Status.invalid_argument LOW_QUANT_ERR) :=
  ⟨(decrease_error_precedence [] ⟨"A1", 1⟩).1 rfl,
   (decrease_error_precedence [("A1", ⟨some ⟨"A1"⟩, none⟩)] ⟨"A1", 1⟩).2.1
     ⟨some ⟨"A1"⟩, none⟩ rfl rfl,
   (decrease_error_precedence [("", ⟨some ⟨""⟩, some ⟨10, 5⟩⟩)] ⟨"", 1⟩).2.2.1
     ⟨some ⟨""⟩, some ⟨10, 5⟩⟩ ⟨10, 5⟩ rfl rfl rfl,
   (decrease_error_precedence [("A1", ⟨some ⟨"A1"⟩, some ⟨10, 5⟩⟩)] ⟨"A1", 0⟩).2.2.2.1
     ⟨some ⟨"A1"⟩, some ⟨10, 5⟩⟩ ⟨10, 5⟩ rfl rfl (by decide) rfl,
   (decrease_error_precedence [("A1", ⟨some ⟨"A1"⟩, some ⟨10, 5⟩⟩)] ⟨"A1", 11⟩).2.2.2.2
     ⟨some ⟨"A1"⟩, some ⟨10, 5⟩⟩ ⟨10, 5⟩ rfl rfl (by decide) (by decide) (by decide)⟩

/-- Counterexample to C5 as stated: on the empty store, decrease with an
empty SKU returns not-found (existence is checked first), not the
invalid-argument empty-SKU error. -/
theorem decrease_empty_sku_counterexample :
    (decrease_quantity [] ⟨"", 1⟩).1 = Except.error (Status.not_found NO_ITEM_ERR) ∧
    Status.not_found NO_ITEM_ERR ≠ Status.invalid_argument EMPTY_SKU_ERR :=
  ⟨rfl, by decide⟩

/-- Claim C5 as amended: decrease with an empty SKU always fails, and the
error is the invalid-argument empty-SKU one exactly when the store holds a
record under the empty key with a present stock; otherwise it is not-found
(no record) or internal (record without stock). -/
theorem decrease_empty_sku_always_fails (m : InventoryMap) (q : Nat) :
    isErr (decrease_quantity m ⟨"", q⟩).1 = true ∧
    ((decrease_quantity m ⟨"", q⟩).1 = Except.error (Status.invalid_argument EMPTY_SKU_ERR) ↔
      ∃ it s, mapGet m "" = some it ∧ it.stock = some s) := by
  cases hg : mapGet m "" with
  | none =>
      refine ⟨by simp [decrease_quantity, hg, isErr], ?_, ?_⟩
      · intro h
        simp [decrease_quantity, hg, Status.not_found, Status.invalid_argument,
          NO_ITEM_ERR, EMPTY_SKU_ERR] at h
      · rintro ⟨it, s, hit, -⟩
        simp at hit
  | some it =>
      cases hs : it.stock with
      | none =>
          refine ⟨by simp [decrease_quantity, hg, hs, isErr], ?_, ?_⟩
          · intro h
            simp [decrease_quantity, hg, hs, Status.internal, Status.invalid_argument,
              NO_STOCK_ERR, EMPTY_SKU_ERR] at h
          · rintro ⟨it', s', hit, hs'⟩
            simp only [Option.some.injEq] at hit
            subst hit
            rw [hs] at hs'
            simp at hs'
      | some s =>
          have he : ("" : String).isEmpty = true := rfl
          refine ⟨by simp [decrease_quantity, hg, hs, he, isErr], ?_, ?_⟩
          · intro _
            exact ⟨it, s, rfl, hs⟩
          · intro _
            simp [decrease_quantity, hg, hs, he]

/-- Claim C6: for a stored record with stock of quantity q and any amount a
with 0 < a and a at most q, a successful decrease by a followed by an
increase by a restores the stored quantity to exactly q. -/
theorem decrease_then_increase (m : InventoryMap) (sku : String) (it : Item) (s : ItemStock)
    (a : Nat) (hg : mapGet m sku = some it) (hstock : it.stock = some s)
    (hsku : ¬ sku.isEmpty = true) (ha0 : 0 < a) (hle : a ≤ s.quantity) :
    isErr (decrease_quantity m ⟨sku, a⟩).1 = false ∧
    isErr (increase_quantity (decrease_quantity m ⟨sku, a⟩).2 ⟨sku, a⟩).1 = false ∧
    ∃ it' s', mapGet (increase_quantity (decrease_quantity m ⟨sku, a⟩).2 ⟨sku, a⟩).2 sku
        = some it' ∧ it'.stock = some s' ∧ s'.quantity = s.quantity := by
  have hne : a ≠ 0 := Nat.pos_iff_ne_zero.mp ha0
  have hnotgt : ¬ a > s.quantity := not_lt.mpr hle
  have hdec : decrease_quantity m ⟨sku, a⟩ =
      (Except.ok ⟨"success", s.price, s.quantity - a⟩,
       mapSet m sku { it with stock := some ⟨s.quantity - a, s.price⟩ }) := by
    simp [decrease_quantity, hg, hstock, hsku, hne, hnotgt]
  have hg1 : mapGet (mapSet m sku { it with stock := some ⟨s.quantity - a, s.price⟩ }) sku
      = some { it with stock := some ⟨s.quantity - a, s.price⟩ } := by
    rw [mapGet_mapSet, if_pos rfl, hg]
    rfl
  have hinc : increase_quantity
      (mapSet m sku { it with stock := some ⟨s.quantity - a, s.price⟩ }) ⟨sku, a⟩ =
      (Except.ok ⟨"success", s.price, s.quantity - a + a⟩,
       mapSet (mapSet m sku { it with stock := some ⟨s.quantity - a, s.price⟩ }) sku
         { it with stock := some ⟨s.quantity - a + a, s.price⟩ }) := by
    simp [increase_quantity, hg1, hsku, hne]
  rw [hdec]
  rw [hinc]
  refine ⟨rfl, rfl, ⟨{ it with stock := some ⟨s.quantity - a + a, s.price⟩ },
    ⟨s.quantity - a + a, s.price⟩, ?_, rfl, Nat.sub_add_cancel hle⟩⟩
  rw [mapGet_mapSet, if_pos rfl, hg1]
  rfl

/-- Witness for C6 at a concrete one-record store with quantity 10 and
amount 3. -/
theorem decrease_then_increase_witness :
    isErr (decrease_quantity [("A1", ⟨some ⟨"A1"⟩, some ⟨10, 5⟩⟩)] ⟨"A1", 3⟩).1 = false ∧
    isErr (increase_quantity
      (decrease_quantity [("A1", ⟨some ⟨"A1"⟩, some ⟨10, 5⟩⟩)] ⟨"A1", 3⟩).2 ⟨"A1", 3⟩).1 = false ∧
    ∃ it' s', mapGet (increase_quantity
      (decrease_quantity [("A1", ⟨some ⟨"A1"⟩, some ⟨10, 5⟩⟩)] ⟨"A1", 3⟩).2 ⟨"A1", 3⟩).2 "A1"
        = some it' ∧ it'.stock = some s' ∧ s'.quantity = 10 :=
  decrease_then_increase [("A1", ⟨some ⟨"A1"⟩, some ⟨10, 5⟩⟩)] "A1"
    ⟨some ⟨"A1"⟩, some ⟨10, 5⟩⟩ ⟨10, 5⟩ 3 rfl rfl (by decide) (by decide) (by decide)

/-- Claim C7: a successful price update changes only the price of the record
at the requested SKU: that record keeps its identifier and quantity and
takes the requested price, and every other key maps to the same value as
before; updating to the price the record already holds fails with the
invalid-argument duplicate-price error and leaves the map unchanged. -/
theorem update_price_frame (m : InventoryMap) (req : PriceChangeRequest) :
    (∀ r m', update_price m req = (Except.ok r, m') →
      (∀ k, k ≠ req.sku → mapGet m' k = mapGet m k) ∧
      ∃ it s, mapGet m req.sku = some it ∧ it.stock = some s ∧
        mapGet m' req.sku =
          some { identifier := it.identifier, stock := some ⟨s.quantity, req.price⟩ }) ∧
    (∀ it s, mapGet m req.sku = some it → it.stock = some s →
      ¬ req.sku.isEmpty = true → ¬ req.price ≤ 0 → s.price = req.price →
      update_price m req = (Except.error (Status.invalid_argument DUP_PRICE_ERR), m)) := by
  constructor
  · intro r m' h
    unfold update_price at h
    split at h
    · simp at h
    · split at h
      · simp at h
      · split at h
        · simp at h
        · rename_i it hg
          split at h
          · simp at h
          · rename_i s hs
            split at h
            · simp at h
            · have hm' : m' =
                  mapSet m req.sku { it with stock := some { s with price := req.price } } := by
                have h2 := congrArg Prod.snd h
                simpa using h2.symm
              subst hm'
              constructor
              · intro k hk
                rw [mapGet_mapSet, if_neg (fun hh => hk hh.symm)]
              · refine ⟨it, s, hg, hs, ?_⟩
                rw [mapGet_mapSet, if_pos rfl, hg]
                rfl
  · intro it s hg hs hsku hp hdup
    simp [update_price, hg, hs, hsku, hp, hdup]

/-- Witness for C7: a concrete successful update leaves the other record
alone, and a duplicate-price update fails leaving the map unchanged. -/
theorem update_price_frame_witness :
    mapGet [("A1", (⟨some ⟨"A1"⟩, some ⟨10, 6⟩⟩ : Item)),
            ("B2", (⟨some ⟨"B2"⟩, some ⟨4, 7⟩⟩ : Item))] "B2" =
      mapGet [("A1", (⟨some ⟨"A1"⟩, some ⟨10, 5⟩⟩ : Item)),
              ("B2", (⟨some ⟨"B2"⟩, some ⟨4, 7⟩⟩ : Item))] "B2" ∧
    update_price [("A1", (⟨some ⟨"A1"⟩, some ⟨10, 5⟩⟩ : Item))] ⟨"A1", 5⟩ =
      (Except.error (Status.invalid_argument DUP_PRICE_ERR),
       [("A1", (⟨some ⟨"A1"⟩, some ⟨10, 5⟩⟩ : Item))]) :=
  ⟨((update_price_frame
      [("A1", (⟨some ⟨"A1"⟩, some ⟨10, 5⟩⟩ : Item)),
       ("B2", (⟨some ⟨"B2"⟩, some ⟨4, 7⟩⟩ : Item))] ⟨"A1", 6⟩).1
      ⟨"success", 6, 10⟩
      [("A1", (⟨some ⟨"A1"⟩, some ⟨10, 6⟩⟩ : Item)),
       ("B2", (⟨some ⟨"B2"⟩, some ⟨4, 7⟩⟩ : Item))] rfl).1 "B2" (by decide),
   (update_price_frame [("A1", (⟨some ⟨"A1"⟩, some ⟨10, 5⟩⟩ : Item))] ⟨"A1", 5⟩).2
     ⟨some ⟨"A1"⟩, some ⟨10, 5⟩⟩ ⟨10, 5⟩ rfl rfl (by decide) (by norm_num) rfl⟩

theorem watchRun_cons_some (h it : Item) (l : List (Option Item)) :
    watchRun h (some it :: l) =
      (if it = h then [] else [WatchEvent.item it]) ++ watchRun it l := by
  by_cases hne : it = h
  · subst hne
    simp [watchRun, watchPoll]
  · simp [watchRun, watchPoll, hne]

/-- Claim C8: over any poll sequence, at the first poll that finds the
watched record absent, the loop sends exactly one terminal not-found error
event and stops: the polls after it contribute nothing to the stream, and no
error event occurs before the terminal one. -/
theorem watch_terminal_event (held : Item) (p1 p2 : List (Option Item))
    (hall : ∀ o ∈ p1, o ≠ none) :
    watchRun held (p1 ++ none :: p2) =
      watchRun held p1 ++ [WatchEvent.error (Status.not_found NO_ITEM_ERR)] ∧
    List.filter isErrEvent (watchRun held p1) = [] := by
  have gen : ∀ (l : List (Option Item)) (h : Item), (∀ o ∈ l, o ≠ none) →
      watchRun h (l ++ none :: p2) =
        watchRun h l ++ [WatchEvent.error (Status.not_found NO_ITEM_ERR)] ∧
      List.filter isErrEvent (watchRun h l) = [] := by
    intro l
    induction l with
    | nil =>
        intro h _
        constructor
        · simp [watchRun, watchPoll]
        · simp [watchRun]
    | cons o rest ih =>
        intro h hall1
        obtain ⟨it, rfl⟩ : ∃ it, o = some it := by
          cases o with
          | none => exact absurd rfl (hall1 none (List.mem_cons_self _ _))
          | some it => exact ⟨it, rfl⟩
        have hall' : ∀ x ∈ rest, x ≠ none := fun x hx => hall1 x (List.mem_cons_of_mem _ hx)
        constructor
        · rw [List.cons_append, watchRun_cons_some, watchRun_cons_some,
            (ih it hall').1, List.append_assoc]
        · rw [watchRun_cons_some, List.filter_append, (ih it hall').2]
          by_cases hne : it = h
          · simp [hne]
          · simp [hne, isErrEvent]
  exact gen p1 held hall

/-- Witness for C8: a concrete watch run where the second poll finds the
record gone. -/
theorem watch_terminal_event_witness :
    watchRun ⟨some ⟨"A1"⟩, some ⟨10, 5⟩⟩
        ([some ⟨some ⟨"A1"⟩, some ⟨9, 5⟩⟩] ++ none :: [some ⟨some ⟨"A1"⟩, some ⟨10, 5⟩⟩]) =
      watchRun ⟨some ⟨"A1"⟩, some ⟨10, 5⟩⟩ [some ⟨some ⟨"A1"⟩, some ⟨9, 5⟩⟩]
        ++ [WatchEvent.error (Status.not_found NO_ITEM_ERR)] ∧
    List.filter isErrEvent
      (watchRun ⟨some ⟨"A1"⟩, some ⟨10, 5⟩⟩ [some ⟨some ⟨"A1"⟩, some ⟨9, 5⟩⟩]) = [] :=
  watch_terminal_event ⟨some ⟨"A1"⟩, some ⟨10, 5⟩⟩
    [some ⟨some ⟨"A1"⟩, some ⟨9, 5⟩⟩] [some ⟨some ⟨"A1"⟩, some ⟨10, 5⟩⟩] (by simp)

end ProductService
